import Mathlib

/-!
# Shallow embedding of the `habit` Go package (streak tracker)

This file embeds the streak state machine and the file-backed habit store of
the `habit` package (the `Record`/`Check`/`FileStore` version of `habit.go`)
and proves the specification claims about them.

Modelling conventions:

* A `time.Time` instant is modelled as a natural number of seconds since Go's
  zero time (January 1, year 1, UTC).  Every instant the program manipulates
  lies at or after the zero time, so `Nat` suffices.  `time.Time.Truncate`
  rounds down to a multiple of the duration since the zero time, which is
  floor division here.
* Go `int` values (streaks, day counts) are modelled as unbounded integers
  (`Int` for the streak field, `Nat` for the always-nonnegative day distance).
  64-bit overflow would need a streak or a gap of about 2^63, which is
  unreachable for day counts, so overflow is not modelled.
* `DayDiff` in Go converts the duration to hours through `float64` and divides
  by 24.  Both arguments are day-truncated first, so the duration is an exact
  multiple of 24h and the floating computation is exact; it is modelled as
  exact integer arithmetic.  (Go's `time.Time.Sub` additionally saturates
  beyond roughly ±292 years; the claims only distinguish distances 0, 1 and
  `> 1`, which saturation never reclassifies, so saturation is not modelled.)
* Methods with pointer receivers are embedded as state-passing functions that
  return the final state of the receiver together with the Go return values.
-/

namespace HabitSpec

/-- `RoundDateToDay` truncates time to 24h periods (days).
Go: `t.UTC().Truncate(24 * time.Hour)` — rounds down to a multiple of
86400 seconds since the zero time. -/
def RoundDateToDay (t : Nat) : Nat :=
  t / 86400 * 86400

/-- `DayDiff` takes two time obj and returns time delta in days.
Go: truncate both, then `int(math.Abs(stop.Sub(start).Hours()) / 24)` —
the absolute whole-day distance between the two truncated instants. -/
def DayDiff (start stop : Nat) : Nat :=
  (((RoundDateToDay stop : Int) - (RoundDateToDay start : Int)).natAbs) / 86400

/-- `Habit` holds tracked habit data: `Name`, `Date` (last recorded day) and
`Streak` (consecutive days recorded). -/
structure Habit where
  Name : String
  Date : Nat
  Streak : Int
deriving DecidableEq, Repr

/-- `New` takes a name and returns a new habit; it errors if the
provided name is empty.  `now` is the injected `Now()` clock value. -/
def New (name : String) (now : Nat) : Except String Habit :=
  if name = "" then
    Except.error "name cannot be empty"
  else
    Except.ok { Name := name, Date := RoundDateToDay now, Streak := 1 }

/-- `setDay` sets the habit date to the day-truncated instant. -/
def Habit.setDay (h : Habit) (t : Nat) : Habit :=
  { h with Date := RoundDateToDay t }

/-- `resetStreak` sets the streak to 1. -/
def Habit.resetStreak (h : Habit) : Habit :=
  { h with Streak := 1 }

/-- `incStreak` increments the streak. -/
def Habit.incStreak (h : Habit) : Habit :=
  { h with Streak := h.Streak + 1 }

/-- `startNewStreak` sets the day to `now` and resets the streak. -/
def Habit.startNewStreak (h : Habit) (now : Nat) : Habit :=
  (h.setDay now).resetStreak

/-- `continueStreak` sets the day to `now` and increments the streak. -/
def Habit.continueStreak (h : Habit) (now : Nat) : Habit :=
  (h.setDay now).incStreak

/-- `Start` starts a new streak and returns the "new habit" message. -/
def Habit.Start (h : Habit) (now : Nat) : Habit × String :=
  (h.startNewStreak now,
   "Good luck with your new habit \x27" ++ h.Name ++
     "\x27. Don\x27t forget to do it tomorrow.\n")

/-- `checkStreak` returns the day distance between the habit date and now. -/
def Habit.checkStreak (h : Habit) (now : Nat) : Nat :=
  DayDiff h.Date now

/-- `Check` verifies if the streak is broken.  It returns the (unchanged)
receiver, the number of days since the habit was logged last time, and the
report message. -/
def Habit.Check (h : Habit) (now : Nat) : Habit × Nat × String :=
  let diff := h.checkStreak now
  if diff = 0 ∨ diff = 1 then
    (h, diff,
     "You\x27re currently on a " ++ toString h.Streak ++
       "-day streak for \x27" ++ h.Name ++ "\x27. Stick to it!\n")
  else
    (h, diff,
     "It\x27s been " ++ toString diff ++ " days since you did \x27" ++
       h.Name ++ "\x27. It\x27s ok, life happens. Get back on that horse today!\n")

/-- `Record` records activity to the existing streak or starts a new streak if
the streak is broken.  It returns the updated receiver, the streak length and
a message. -/
def Habit.Record (h : Habit) (now : Nat) : Habit × Int × String :=
  let diff := h.checkStreak now
  if diff = 0 then
    (h, h.Streak, "")
  else if diff > 1 then
    let g := h.startNewStreak now
    (g, g.Streak,
     "You last did the habit \x27" ++ h.Name ++ "\x27 " ++ toString diff ++
       " days ago, so you\x27re starting a new streak today. Good luck!\n")
  else
    let g := h.continueStreak now
    (g, g.Streak,
     "Nice work: you\x27ve done the habit \x27" ++ h.Name ++ "\x27 for " ++
       toString g.Streak ++ " days in a row now. Keep it up!\n")

/-- Recording on exactly the next calendar day, repeatedly: one step of the
"N consecutive next-day calls" scenario. -/
def nextDayRecord (h : Habit) : Habit :=
  (h.Record (h.Date + 86400)).1

/-!
## File store

The backing file's contents are abstracted: the store only ever reads or
writes JSON texts encoding a `map[string]Habit`, so a file's contents are
modelled by which of the relevant shapes the bytes have (zero-length, the
literal `null`, a well-formed object listing entries in textual order, or
bytes that do not parse as such a map).  A filesystem is a partial map from
paths to file contents; I/O never fails in the model (I/O errors are outside
the claims).  Go's `nil` map (produced by unmarshalling `null`) is
distinguished from an allocated empty map by an `Option`: `none` is the nil
map. -/

/-- Contents of a file at the store path, classified by how
`encoding/json.Unmarshal` into a `map[string]Habit` treats them. -/
inductive FileData where
  /-- A zero-length file. -/
  | empty : FileData
  /-- The literal JSON `null`. -/
  | null : FileData
  /-- A well-formed JSON object of the expected shape; `entries` lists the
  object's key/value pairs in textual order. -/
  | obj (entries : List (String × Habit)) : FileData
  /-- Bytes that do not parse into a `map[string]Habit`. -/
  | malformed : FileData
deriving DecidableEq

/-- A filesystem: which file contents, if any, sit at each path. -/
abbrev FS := String → Option FileData

/-- Go map assignment `m[k] = v` on a map represented as an association list
kept sorted by key: replaces the entry at `k` or inserts it in key order. -/
def mapInsert : List (String × Habit) → String → Habit → List (String × Habit)
  | [], k, v => [(k, v)]
  | (k', v') :: rest, k, v =>
    if k = k' then (k, v) :: rest
    else if k < k' then (k, v) :: (k', v') :: rest
    else (k', v') :: mapInsert rest k v

/-- Go map read `m[k]` (the `, ok` form) on the association-list
representation. -/
def mapLookup : List (String × Habit) → String → Option Habit
  | [], _ => none
  | (k', v') :: rest, k => if k = k' then some v' else mapLookup rest k

/-- The map built by inserting each listed entry in order into an empty map:
how `encoding/json` populates a `map[string]Habit` from an object's entries
(later duplicate keys overwrite earlier ones), and also the canonical
sorted-by-key form in which `encoding/json.Marshal` writes a map out. -/
def canonOf (entries : List (String × Habit)) : List (String × Habit) :=
  entries.foldl (fun acc kv => mapInsert acc kv.1 kv.2) []

/-- A well-formed association-list representation of a Go map: keys strictly
increasing.  Every map the embedded code constructs satisfies this. -/
abbrev canonicalMap (l : List (String × Habit)) : Prop :=
  l.Pairwise (fun a b => a.1 < b.1)

/-- `json.Marshal` of the store's `map[string]Habit`: a `nil` map marshals to
the literal `null`, any other map to an object with its entries in sorted key
order. -/
def Marshal : Option (List (String × Habit)) → FileData
  | none => FileData.null
  | some l => FileData.obj (canonOf l)

/-- `FileStore` implements the Store interface: a path and the in-memory
collection (`none` models Go's nil map). -/
structure FileStore where
  Path : String
  Data : Option (List (String × Habit))
deriving DecidableEq

/-- The error value the model uses for a backing file that exists but cannot
be unmarshalled into `map[string]Habit` (Go surfaces `encoding/json`'s own
message, whose exact text depends on the bytes). -/
def malformedMsg : String := "malformed habit store data"

/-- `NewFileStore` takes a path and returns a file store: a fresh empty
collection when no file exists; the parsed collection when the file parses
(a zero-length file is not parsed and keeps the fresh empty map; `null` sets
the map to nil); an error when parsing fails. -/
def NewFileStore (path : String) (fs : FS) : Except String FileStore :=
  match fs path with
  | Option.none => Except.ok { Path := path, Data := some [] }
  | Option.some FileData.empty => Except.ok { Path := path, Data := some [] }
  | Option.some FileData.null => Except.ok { Path := path, Data := none }
  | Option.some (FileData.obj entries) =>
      Except.ok { Path := path, Data := some (canonOf entries) }
  | Option.some FileData.malformed => Except.error malformedMsg

/-- `Save` marshals the collection and overwrites the backing file in one
write. -/
def FileStore.Save (f : FileStore) (fs : FS) : FS :=
  fun p => if p = f.Path then some (Marshal f.Data) else fs p

/-- `golang.org/x/exp/maps.Values` of the collection (a nil map has no
values). -/
def goMapValues : Option (List (String × Habit)) → List Habit
  | none => []
  | some l => l.map Prod.snd

/-- The comparison `sort.Slice` uses in `GetAll`, as a total preorder. -/
def byName (a b : Habit) : Prop := a.Name ≤ b.Name

instance : DecidableRel byName := fun a b =>
  if h : b.Name < a.Name then isFalse (fun hle => absurd h hle)
  else isTrue h

instance : IsTotal Habit byName := ⟨fun a b => le_total a.Name b.Name⟩

instance : IsTrans Habit byName := ⟨fun _ _ _ hab hbc => le_trans hab hbc⟩

/-- `GetAll` returns all tracked habits: the map's values sorted by habit
name. -/
def FileStore.GetAll (f : FileStore) : List Habit :=
  List.insertionSort byName (goMapValues f.Data)

/-- `Get` takes a habit name and returns the habit and whether it was
found. -/
def FileStore.Get (f : FileStore) (habitName : String) : Option Habit :=
  match f.Data with
  | none => mapLookup [] habitName
  | some l => mapLookup l habitName

/-- `Add` takes a habit and puts it into the in-memory collection (it does
not persist).  Assigning into Go's nil map is a runtime panic, modelled as an
error result. -/
def FileStore.Add (f : FileStore) (habit : Habit) : Except String FileStore :=
  match f.Data with
  | none => Except.error "panic: assignment to entry in nil map"
  | some l => Except.ok { f with Data := some (mapInsert l habit.Name habit) }

/-- `Log` takes a habit name and logs the habit; if a habit with that name
does not exist, `Log` creates and starts it.  Returns the updated store and
the message. -/
def FileStore.Log (f : FileStore) (habitName : String) (now : Nat) :
    Except String (FileStore × String) :=
  match f.Get habitName with
  | Option.none =>
    match New habitName now with
    | Except.error e => Except.error e
    | Except.ok h =>
      let started := h.Start now
      match f.Add started.1 with
      | Except.error e => Except.error e
      | Except.ok f2 => Except.ok (f2, started.2)
  | Option.some h =>
    let r := h.Record now
    match f.Add r.1 with
    | Except.error e => Except.error e
    | Except.ok f2 => Except.ok (f2, r.2.2)

/-- `Check` takes a store and reports about all tracked habits: the
concatenation of each habit's check message in `GetAll` order, or the
"not tracking" line when there are none. -/
def Check (s : FileStore) (now : Nat) : String :=
  let habits := s.GetAll
  if habits.length = 0 then "You are not tracking any habit yet.\n"
  else String.join (habits.map (fun h => (h.Check now).2.2))

/-- `Record` takes a store and a habit name and records habit activity: it
logs into the in-memory collection and then saves the store.  The result is
the final store, the final filesystem, and the returned message or error (on
error the store and the file are untouched: `Log` fails before mutating, and
`Save` is never reached). -/
def Record (s : FileStore) (fs : FS) (habitName : String) (now : Nat) :
    FileStore × FS × Except String String :=
  match s.Log habitName now with
  | Except.error e => (s, fs, Except.error e)
  | Except.ok (s2, msg) => (s2, s2.Save fs, Except.ok msg)

/-!
## Day-arithmetic helper lemmas
-/

lemma round_add_mul (d k : Nat) (hd : RoundDateToDay d = d) :
    RoundDateToDay (d + 86400 * k) = d + 86400 * k := by
  unfold RoundDateToDay at *
  omega

lemma dayDiff_self_next (d : Nat) (hd : RoundDateToDay d = d) :
    DayDiff d (d + 86400) = 1 := by
  unfold DayDiff RoundDateToDay at *
  omega

/-- One next-day step of `Record`: on a day-truncated habit, recording exactly
one day later advances the date by a day and the streak by one. -/
lemma nextDayRecord_spec (h : Habit) (hd : RoundDateToDay h.Date = h.Date) :
    nextDayRecord h = { h with Date := h.Date + 86400, Streak := h.Streak + 1 } := by
  have h1 : DayDiff h.Date (h.Date + 86400) = 1 := dayDiff_self_next _ hd
  have h2 : RoundDateToDay (h.Date + 86400) = h.Date + 86400 := by
    simpa using round_add_mul h.Date 1 hd
  simp [nextDayRecord, Habit.Record, Habit.checkStreak, h1, Habit.continueStreak,
    Habit.setDay, Habit.incStreak, h2]

/-- `Check` never changes the receiver. -/
lemma check_fst (h : Habit) (now : Nat) : (h.Check now).1 = h := by
  simp only [Habit.Check]
  split <;> rfl

/-- The first value `Check` returns is the day distance, in both branches. -/
lemma check_days (h : Habit) (now : Nat) : (h.Check now).2.1 = DayDiff h.Date now := by
  simp only [Habit.Check, Habit.checkStreak]
  split <;> rfl

/-!
## Claims C1–C4: the streak state machine
-/

/-- C1: if `now` falls on the same calendar day as the habit's last logged
date (`DayDiff = 0`), `Record` leaves the habit (streak and date) unchanged,
returns the empty message and the current streak, and iterating the call any
number of times still leaves the habit unchanged. -/
theorem record_same_day_idempotent (h : Habit) (now : Nat)
    (hd : DayDiff h.Date now = 0) (n : Nat) :
    h.Record now = (h, h.Streak, "") ∧
    (fun g => (Habit.Record g now).1)^[n] h = h := by
  have h1 : h.Record now = (h, h.Streak, "") := by
    simp [Habit.Record, Habit.checkStreak, hd]
  refine ⟨h1, Function.iterate_fixed ?_ n⟩
  show (h.Record now).1 = h
  rw [h1]

theorem record_same_day_idempotent_witness :
    Habit.Record ⟨"jog", 0, 5⟩ 3600 = (⟨"jog", 0, 5⟩, 5, "") ∧
    (fun g => (Habit.Record g 3600).1)^[4] ⟨"jog", 0, 5⟩ = ⟨"jog", 0, 5⟩ :=
  record_same_day_idempotent ⟨"jog", 0, 5⟩ 3600 (by decide) 4

/-- C2: on a consecutive day (`DayDiff = 1`), `Record` increments the streak
by exactly one, sets the date to `day(now)`, returns the new streak and the
celebration message; and `n` consecutive next-day calls increase the streak
by exactly one each time (never resetting it), advancing the date one day per
call. -/
theorem record_next_day_increments (h : Habit) (now : Nat) (n : Nat)
    (h1 : DayDiff h.Date now = 1) (h2 : RoundDateToDay h.Date = h.Date) :
    ((h.Record now).1.Streak = h.Streak + 1 ∧
     (h.Record now).1.Date = RoundDateToDay now ∧
     (h.Record now).2.1 = h.Streak + 1 ∧
     (h.Record now).2.2 =
       "Nice work: you\x27ve done the habit \x27" ++ h.Name ++ "\x27 for " ++
         toString (h.Streak + 1) ++ " days in a row now. Keep it up!\n") ∧
    ((nextDayRecord^[n] h).Streak = h.Streak + n ∧
     (nextDayRecord^[n] h).Date = h.Date + 86400 * n) := by
  constructor
  · simp [Habit.Record, Habit.checkStreak, h1, Habit.continueStreak,
      Habit.setDay, Habit.incStreak]
  · induction n with
    | zero => simp
    | succ k ih =>
      have hround : RoundDateToDay (nextDayRecord^[k] h).Date =
          (nextDayRecord^[k] h).Date := by
        rw [ih.2]
        exact round_add_mul h.Date k h2
      rw [Function.iterate_succ_apply', nextDayRecord_spec _ hround]
      refine ⟨?_, ?_⟩
      · show (nextDayRecord^[k] h).Streak + 1 = h.Streak + (k + 1 : Nat)
        rw [ih.1]
        push_cast
        ring
      · show (nextDayRecord^[k] h).Date + 86400 = h.Date + 86400 * (k + 1)
        rw [ih.2]
        ring

theorem record_next_day_increments_witness :
    ((Habit.Record ⟨"jog", 0, 2⟩ 93600).1.Streak = 3 ∧
     (Habit.Record ⟨"jog", 0, 2⟩ 93600).1.Date = 86400 ∧
     (Habit.Record ⟨"jog", 0, 2⟩ 93600).2.1 = 3 ∧
     (Habit.Record ⟨"jog", 0, 2⟩ 93600).2.2 =
       "Nice work: you\x27ve done the habit \x27jog\x27 for 3 days in a row now. Keep it up!\n") ∧
    ((nextDayRecord^[3] ⟨"jog", 0, 2⟩).Streak = 5 ∧
     (nextDayRecord^[3] ⟨"jog", 0, 2⟩).Date = 259200) :=
  record_next_day_increments ⟨"jog", 0, 2⟩ 93600 3 (by decide) (by decide)

/-- C3: after a gap of more than one day (`DayDiff > 1`), `Record` resets the
streak to 1 regardless of its previous value, sets the date to `day(now)`,
and returns a message reporting the gap length (the day distance). -/
theorem record_gap_resets (h : Habit) (now : Nat)
    (hgt : DayDiff h.Date now > 1) :
    h.Record now =
      ({ h with Date := RoundDateToDay now, Streak := 1 }, 1,
       "You last did the habit \x27" ++ h.Name ++ "\x27 " ++
         toString (DayDiff h.Date now) ++
         " days ago, so you\x27re starting a new streak today. Good luck!\n") := by
  have h0 : ¬ DayDiff h.Date now = 0 := by omega
  simp [Habit.Record, Habit.checkStreak, h0, hgt, Habit.startNewStreak,
    Habit.setDay, Habit.resetStreak]

theorem record_gap_resets_witness :
    Habit.Record ⟨"jog", 0, 7⟩ 432000 =
      (⟨"jog", 432000, 1⟩, 1,
       "You last did the habit \x27jog\x27 5 days ago, so you\x27re starting a new streak today. Good luck!\n") :=
  (record_gap_resets ⟨"jog", 0, 7⟩ 432000 (by decide)).trans (by decide)

/-- C4: `Check` never changes the habit (streak or date), no matter how many
times it is called; its first returned value is the day distance between the
last logged date and `now` in both branches; the intact branch
(`diff ∈ {0,1}`) reports the current streak length and the broken branch
(`diff > 1`) reports the elapsed days. -/
theorem check_never_mutates (h : Habit) (now : Nat) (n : Nat) :
    (h.Check now).1 = h ∧
    (h.Check now).2.1 = DayDiff h.Date now ∧
    ((fun g => (Habit.Check g now).1)^[n] h = h) ∧
    (DayDiff h.Date now = 0 ∨ DayDiff h.Date now = 1 →
      (h.Check now).2.2 =
        "You\x27re currently on a " ++ toString h.Streak ++
          "-day streak for \x27" ++ h.Name ++ "\x27. Stick to it!\n") ∧
    (DayDiff h.Date now > 1 →
      (h.Check now).2.2 =
        "It\x27s been " ++ toString (DayDiff h.Date now) ++
          " days since you did \x27" ++ h.Name ++
          "\x27. It\x27s ok, life happens. Get back on that horse today!\n") := by
  refine ⟨check_fst h now, check_days h now,
    Function.iterate_fixed (check_fst h now) n, ?_, ?_⟩
  · intro hc
    simp only [Habit.Check, Habit.checkStreak] at *
    rw [if_pos hc]
  · intro hgt
    have hc : ¬ (DayDiff h.Date now = 0 ∨ DayDiff h.Date now = 1) := by omega
    simp only [Habit.Check, Habit.checkStreak] at *
    rw [if_neg hc]

theorem check_never_mutates_witness :
    (Habit.Check ⟨"jog", 0, 1⟩ 864000).1 = ⟨"jog", 0, 1⟩ ∧
    (Habit.Check ⟨"jog", 0, 1⟩ 864000).2.1 = 10 ∧
    (Habit.Check ⟨"jog", 0, 1⟩ 864000).2.2 =
      "It\x27s been 10 days since you did \x27jog\x27. It\x27s ok, life happens. Get back on that horse today!\n" := by
  have h := check_never_mutates ⟨"jog", 0, 1⟩ 864000 2
  exact ⟨h.1, h.2.1.trans (by decide), (h.2.2.2.2 (by decide)).trans (by decide)⟩

/-!
## Association-list lemmas for the store

`mapInsert` of a key greater than every key present appends at the end, so
folding `mapInsert` over an already canonical (strictly key-sorted) entry
list rebuilds exactly that list.
-/

lemma mapInsert_gt (acc : List (String × Habit)) (k : String) (v : Habit)
    (h : ∀ x ∈ acc, x.1 < k) :
    mapInsert acc k v = acc ++ [(k, v)] := by
  induction acc with
  | nil => rfl
  | cons kv rest ih =>
    obtain ⟨k', v'⟩ := kv
    have hk' : k' < k := h (k', v') (by simp)
    have hne : ¬ k = k' := ne_of_gt hk'
    have hnlt : ¬ k < k' := lt_asymm hk'
    simp only [mapInsert, if_neg hne, if_neg hnlt, List.cons_append]
    rw [ih (fun x hx => h x (by simp [hx]))]

lemma foldl_mapInsert_eq (l : List (String × Habit)) :
    ∀ acc, canonicalMap (acc ++ l) →
      l.foldl (fun a kv => mapInsert a kv.1 kv.2) acc = acc ++ l := by
  induction l with
  | nil => intro acc _; simp
  | cons kv rest ih =>
    intro acc h
    obtain ⟨k, v⟩ := kv
    have hlt : ∀ x ∈ acc, x.1 < k := by
      intro x hx
      exact (List.pairwise_append.mp h).2.2 x hx (k, v) (by simp)
    rw [List.foldl_cons]
    dsimp only
    rw [mapInsert_gt acc k v hlt]
    have h2 : canonicalMap ((acc ++ [(k, v)]) ++ rest) := by
      simpa [canonicalMap, List.append_assoc] using h
    rw [ih (acc ++ [(k, v)]) h2]
    simp

lemma canonOf_eq_self (l : List (String × Habit)) (h : canonicalMap l) :
    canonOf l = l := by
  have := foldl_mapInsert_eq l [] (by simpa using h)
  simpa [canonOf] using this

/-!
## Claims C5–C10: the file store
-/

/-- C5: `Save` followed by reopening the same path with `NewFileStore` yields
exactly the store that was saved — for the nil collection, the empty
collection, and any non-empty collection (in its canonical sorted-key map
representation). -/
theorem save_open_roundtrip (f : FileStore) (fs : FS)
    (hc : ∀ l, f.Data = some l → canonicalMap l) :
    NewFileStore f.Path (f.Save fs) = Except.ok f := by
  obtain ⟨path, data⟩ := f
  cases data with
  | none => simp [NewFileStore, FileStore.Save, Marshal]
  | some l =>
    have hl : canonicalMap l := hc l rfl
    simp [NewFileStore, FileStore.Save, Marshal, canonOf_eq_self l hl]

theorem save_open_roundtrip_witness :
    NewFileStore "/home/u/.habits.json"
        (FileStore.Save ⟨"/home/u/.habits.json", some [("jog", ⟨"jog", 0, 3⟩)]⟩
          (fun _ => none)) =
      Except.ok ⟨"/home/u/.habits.json", some [("jog", ⟨"jog", 0, 3⟩)]⟩ ∧
    NewFileStore "/home/u/.habits.json"
        (FileStore.Save ⟨"/home/u/.habits.json", some []⟩ (fun _ => none)) =
      Except.ok ⟨"/home/u/.habits.json", some []⟩ :=
  ⟨save_open_roundtrip ⟨"/home/u/.habits.json", some [("jog", ⟨"jog", 0, 3⟩)]⟩
      (fun _ => none)
      (fun l hl => by
        have hl2 : some [("jog", (⟨"jog", 0, 3⟩ : Habit))] = some l := hl
        injection hl2 with h
        subst h
        decide),
   save_open_roundtrip ⟨"/home/u/.habits.json", some []⟩ (fun _ => none)
      (fun l hl => by
        have hl2 : (some [] : Option (List (String × Habit))) = some l := hl
        injection hl2 with h
        subst h
        decide)⟩

/-- C6 counterexample: saving the empty (allocated) collection writes the
JSON object `{}` to the backing file, not the literal `null`. -/
theorem save_empty_writes_obj_not_null :
    FileStore.Save { Path := "p", Data := some [] } (fun _ => none) "p" =
      some (FileData.obj []) ∧
    FileData.obj [] ≠ FileData.null := by
  constructor
  · simp [FileStore.Save, Marshal, canonOf]
  · decide

/-- C6 (amended): `Save` encodes the nil collection (the one produced by
reading `null`) as the literal `null`, and an allocated empty collection as
the empty object; `NewFileStore` on a file containing `null` succeeds and
yields an empty collection (the nil map, whose `GetAll` is empty). -/
theorem null_empty_store_encoding (path : String) (fs : FS)
    (hnull : fs path = some FileData.null) :
    FileStore.Save { Path := path, Data := none } fs path = some FileData.null ∧
    FileStore.Save { Path := path, Data := some [] } fs path =
      some (FileData.obj []) ∧
    NewFileStore path fs = Except.ok { Path := path, Data := none } ∧
    FileStore.GetAll { Path := path, Data := none } = [] := by
  refine ⟨by simp [FileStore.Save, Marshal],
    by simp [FileStore.Save, Marshal, canonOf], ?_, by rfl⟩
  simp [NewFileStore, hnull]

theorem null_empty_store_encoding_witness :
    FileStore.Save { Path := "p", Data := none }
        (fun _ => some FileData.null) "p" = some FileData.null ∧
    FileStore.Save { Path := "p", Data := some [] }
        (fun _ => some FileData.null) "p" = some (FileData.obj []) ∧
    NewFileStore "p" (fun _ => some FileData.null) =
      Except.ok { Path := "p", Data := none } ∧
    FileStore.GetAll { Path := "p", Data := none } = [] :=
  null_empty_store_encoding "p" (fun _ => some FileData.null) rfl

/-- C7: when no file exists at the path, `NewFileStore` returns an empty
collection bound to that path with no error; when the file exists but cannot
be parsed into the expected collection shape, it returns a malformed-data
error and no store. -/
theorem newFileStore_open_semantics (path : String) (fs : FS) :
    (fs path = none →
      NewFileStore path fs = Except.ok { Path := path, Data := some [] }) ∧
    (fs path = some FileData.malformed →
      NewFileStore path fs = Except.error malformedMsg) := by
  constructor <;> intro h <;> simp [NewFileStore, h]

theorem newFileStore_open_semantics_witness :
    NewFileStore "p" (fun _ => none) =
      Except.ok { Path := "p", Data := some [] } ∧
    NewFileStore "q" (fun _ => some FileData.malformed) =
      Except.error malformedMsg :=
  ⟨(newFileStore_open_semantics "p" (fun _ => none)).1 rfl,
   (newFileStore_open_semantics "q" (fun _ => some FileData.malformed)).2 rfl⟩

/-- C8: `GetAll` returns the collection's values as a sequence sorted by
habit name (a permutation of the map's values), and the check-all operation
returns the concatenation of one message per habit in that order, or exactly
the "not tracking" line when the collection is empty. -/
theorem getAll_sorted_check_all (f : FileStore) (now : Nat) :
    List.Sorted byName f.GetAll ∧
    f.GetAll.Perm (goMapValues f.Data) ∧
    (f.GetAll = [] → Check f now = "You are not tracking any habit yet.\n") ∧
    (f.GetAll ≠ [] →
      Check f now = String.join (f.GetAll.map (fun h => (h.Check now).2.2))) := by
  refine ⟨List.sorted_insertionSort byName _, List.perm_insertionSort byName _,
    ?_, ?_⟩
  · intro he
    simp [Check, he]
  · intro hne
    have hlen : ¬ f.GetAll.length = 0 := by
      simpa [List.length_eq_zero] using hne
    simp [Check, hlen]

theorem getAll_sorted_check_all_witness :
    Check ⟨"p", some []⟩ 0 = "You are not tracking any habit yet.\n" ∧
    Check ⟨"p", some [("jog", ⟨"jog", 0, 2⟩)]⟩ 86400 =
      String.join ((FileStore.GetAll ⟨"p", some [("jog", ⟨"jog", 0, 2⟩)]⟩).map
        (fun h => (h.Check 86400).2.2)) :=
  ⟨(getAll_sorted_check_all ⟨"p", some []⟩ 0).2.2.1 (by decide),
   (getAll_sorted_check_all ⟨"p", some [("jog", ⟨"jog", 0, 2⟩)]⟩ 86400).2.2.2
     (by decide)⟩

/-- C9 counterexample: on a store whose collection already holds an entry
keyed by the empty string (reachable by opening a backing file such as
`{"": {"name": "", "date": "0001-01-01T00:00:00Z", "streak": 1}}`), logging
the empty name is not rejected: `Log` succeeds with no validation error (the
existing entry is recorded via the same-day no-op branch), and the composite
`Record` then reaches `Save` and writes the backing file. -/
theorem empty_name_logged_counterexample :
    FileStore.Log ⟨"p", some [("", ⟨"", 0, 1⟩)]⟩ "" 0 =
      Except.ok (⟨"p", some [("", ⟨"", 0, 1⟩)]⟩, "") ∧
    (Record ⟨"p", some [("", ⟨"", 0, 1⟩)]⟩ (fun _ => none) "" 0).2.1 "p" =
      some (FileData.obj [("", ⟨"", 0, 1⟩)]) ∧
    ((fun _ => none : FS) "p" = none) :=
  ⟨rfl, rfl, rfl⟩

/-- C9 (amended): on every store whose collection has no entry keyed by the
empty string, logging an empty habit name — through `New`, `FileStore.Log`,
or the composite `Record` — returns the validation error before any state is
touched: the in-memory collection is unchanged and the backing file is not
written. -/
theorem empty_name_rejected (s : FileStore) (fs : FS) (now : Nat)
    (habsent : s.Get "" = Option.none) :
    New "" now = Except.error "name cannot be empty" ∧
    s.Log "" now = Except.error "name cannot be empty" ∧
    Record s fs "" now = (s, fs, Except.error "name cannot be empty") := by
  have hnew : New "" now = Except.error "name cannot be empty" := by simp [New]
  have hlog : s.Log "" now = Except.error "name cannot be empty" := by
    simp [FileStore.Log, habsent, hnew]
  exact ⟨hnew, hlog, by simp [Record, hlog]⟩

theorem empty_name_rejected_witness :
    New "" 0 = Except.error "name cannot be empty" ∧
    FileStore.Log ⟨"p", some [("jog", ⟨"jog", 0, 1⟩)]⟩ "" 0 =
      Except.error "name cannot be empty" ∧
    Record ⟨"p", some [("jog", ⟨"jog", 0, 1⟩)]⟩ (fun _ => none) "" 0 =
      (⟨"p", some [("jog", ⟨"jog", 0, 1⟩)]⟩, (fun _ => none),
       Except.error "name cannot be empty") :=
  empty_name_rejected ⟨"p", some [("jog", ⟨"jog", 0, 1⟩)]⟩ (fun _ => none) 0 rfl

/-- C10: a zero-length backing file is not parsed: `NewFileStore` returns an
empty collection with no error rather than a malformed-data error. -/
theorem newFileStore_zero_length_file (path : String) (fs : FS)
    (h : fs path = some FileData.empty) :
    NewFileStore path fs = Except.ok { Path := path, Data := some [] } := by
  simp [NewFileStore, h]

theorem newFileStore_zero_length_file_witness :
    NewFileStore "p" (fun _ => some FileData.empty) =
      Except.ok { Path := "p", Data := some [] } :=
  newFileStore_zero_length_file "p" (fun _ => some FileData.empty) rfl

end HabitSpec
